import Mathlib

/-!
# Verification of the cement template handler

A shallow embedding of `src/cement/core/template.py` (class `TemplateHandler`):
the `load` template-resolution routine together with its helpers
`_load_template_from_file` and `_load_template_from_module`, and the `copy`
directory-tree render-and-copy routine.

The filesystem is modelled as an association of absolute path strings to file
contents plus a set of existing directories.  Python's `re.match` on the
pattern strings used by `copy` is embedded by a small regular-expression
matcher (`Regex.run`) whose semantics is the prefix-anchored partial match that
`re.match` performs; `re.sub` is only ever applied by the source to
metacharacter-free pattern strings (the source prefix, and `'/'`), so it is
embedded as literal substring replacement (`reSubLit`).
-/

namespace Cement

/-! ## Python string primitives used by the source -/

/-- Python `str.lstrip(c)`: drop every leading occurrence of the character. -/
def pyLstrip (c : Char) (s : String) : String :=
  ⟨s.data.dropWhile (fun b => b = c)⟩

/-- Python `str.rstrip(c)`: drop every trailing occurrence of the character. -/
def pyRstrip (c : Char) (s : String) : String :=
  ⟨(s.data.reverse.dropWhile (fun b => b = c)).reverse⟩

/-- Replace every leftmost, non-overlapping occurrence of `pat` in the char
list, with enough fuel; used only with non-empty patterns. -/
def replaceAllAux (pat repl : List Char) : Nat → List Char → List Char
  | _, [] => []
  | 0, s => s
  | fuel + 1, c :: rest =>
    if pat.isPrefixOf (c :: rest) then
      repl ++ replaceAllAux pat repl fuel ((c :: rest).drop pat.length)
    else
      c :: replaceAllAux pat repl fuel rest

/-- Python `re.sub(pat, repl, s)` for a metacharacter-free pattern `pat`:
replace every occurrence of the literal string. -/
def reSubLit (pat repl s : String) : String :=
  ⟨replaceAllAux pat.data repl.data s.data.length s.data⟩

/-- Posix `os.path.join` for two components: an absolute second component
discards the first. -/
def osJoin (a b : String) : String :=
  if b.data.take 1 = ['/'] then b
  else if a = "" then b
  else if a.data.getLast? = some '/' then a ++ b
  else a ++ "/" ++ b

/-- Modelled from the spec: cement's `fs.abspath` (in `utils/fs.py`, not under
`src/`) "normalizes to absolute form".  Already-absolute, already-normal paths
are returned unchanged; a relative path is anchored at the root, which stands
for the working directory. -/
def fs_abspath (p : String) : String :=
  if p.data.take 1 = ['/'] then p else "/" ++ p

/-- The leading components of a path: everything up to and excluding the last
`/`-separated component. -/
def dirOf (p : String) : String :=
  ⟨((p.data.reverse.dropWhile (fun b => b ≠ '/')).drop 1).reverse⟩

/-- The last `/`-separated component of a path. -/
def baseOf (p : String) : String :=
  ⟨(p.data.reverse.takeWhile (fun b => b ≠ '/')).reverse⟩

/-- Split a character list at every `/`, like Python's `str.split('/')`. -/
def splitSlashAux : List Char → List Char → List (List Char)
  | [], acc => [acc.reverse]
  | '/' :: rest, acc => acc.reverse :: splitSlashAux rest []
  | c :: rest, acc => splitSlashAux rest (c :: acc)

/-- All the ancestors of an absolute path, innermost last: the directories
that `os.makedirs` guarantees to exist afterwards. -/
def pathAncestors (p : String) : List String :=
  let parts := splitSlashAux p.data []
  (List.range parts.length).filterMap fun i =>
    if i = 0 then none
    else some ⟨List.intercalate ['/'] (parts.take (i + 1))⟩

/-! ## The filesystem model -/

/-- A snapshot of the filesystem: file contents keyed by absolute path, and
the set of existing directories. -/
structure FS where
  files : List (String × String)
  dirs : List String
deriving DecidableEq, Repr

/-- Content of the regular file at `p`, when one exists. -/
def lookupFile (fs : FS) (p : String) : Option String :=
  fs.files.lookup p

/-- `True` when `p` is an existing directory. -/
def isDir (fs : FS) (p : String) : Bool :=
  fs.dirs.contains p

/-- Python `os.path.exists`: a file or a directory is present at `p`. -/
def osExists (fs : FS) (p : String) : Bool :=
  (lookupFile fs p).isSome || isDir fs p

/-- Create or overwrite the regular file at `p` with content `c`. -/
def writeFile (fs : FS) (p c : String) : FS :=
  ⟨(p, c) :: fs.files.filter (fun e => e.1 ≠ p), fs.dirs⟩

/-- Python `os.makedirs`: create the directory and every missing ancestor. -/
def makedirsAll (fs : FS) (p : String) : FS :=
  ⟨fs.files, fs.dirs ++ (pathAncestors p).filter (fun q => ¬ fs.dirs.contains q)⟩

/-- The names of the immediate subdirectories of `d`. -/
def childDirNames (fs : FS) (d : String) : List String :=
  fs.dirs.filterMap fun p => if dirOf p = d then some (baseOf p) else none

/-- The names of the regular files lying directly in `d`. -/
def childFileNames (fs : FS) (d : String) : List String :=
  fs.files.filterMap fun e => if dirOf e.1 = d then some (baseOf e.1) else none

/-- Fuelled recursive directory walk, top-down, as `os.walk(root)` yields it:
each visited directory contributes its path, its subdirectory names and its
file names.  A root that is not a directory yields nothing. -/
def walkAux (fs : FS) : Nat → String → List (String × List String × List String)
  | 0, _ => []
  | fuel + 1, root =>
    if fs.dirs.contains root then
      (root, childDirNames fs root, childFileNames fs root) ::
        (childDirNames fs root).flatMap (fun n => walkAux fs fuel (osJoin root n))
    else []

/-- Python `os.walk(root)` over the snapshot: the depth of the tree is bounded
by the number of directories, so that much fuel is exact. -/
def osWalk (fs : FS) (root : String) : List (String × List String × List String) :=
  walkAux fs (fs.dirs.length + 1) root

/-! ## Regular expressions, as `re.match` uses them

The pattern strings that `TemplateHandler.copy` matches against file paths are
Python regular expressions consulted through `re.match(pattern, path)`, which
anchors the pattern at the beginning of the path but does not require it to
reach the end.  The fragment below covers every construct occurring in the
handler's default patterns: literal characters, `.`, `(...)` grouping (a
capture group is transparent to a boolean match), `*`, alternation, and `$`. -/

/-- Abstract syntax of the regular-expression fragment. -/
inductive Regex where
  | eps
  | char (c : Char)
  | wild
  | seq (a b : Regex)
  | alt (a b : Regex)
  | star (r : Regex)
  | eos
deriving DecidableEq, Repr

/-- `RMatch r s t` holds when `r` matches some leading part of `s`, leaving
the suffix `t` unconsumed; `eos` (Python `$`) succeeds only at the end of the
whole subject string. -/
inductive RMatch : Regex → List Char → List Char → Prop where
  | eps {s} : RMatch .eps s s
  | char {c s} : RMatch (.char c) (c :: s) s
  | wild {c s} : RMatch .wild (c :: s) s
  | seq {a b s t u} : RMatch a s t → RMatch b t u → RMatch (.seq a b) s u
  | altL {a b s t} : RMatch a s t → RMatch (.alt a b) s t
  | altR {a b s t} : RMatch b s t → RMatch (.alt a b) s t
  | starNil {r s} : RMatch (.star r) s s
  | starCons {r s t u} : RMatch r s t → RMatch (.star r) t u →
      RMatch (.star r) s u
  | eos : RMatch .eos [] []

/-- Iterate a one-step matcher under `*`: collect the remainders reachable by
zero or more strictly-consuming repetitions, bounded by the fuel. -/
def runStar (runR : List Char → List (List Char)) : Nat → List Char → List (List Char)
  | 0, s => [s]
  | fuel + 1, s =>
    s :: ((runR s).filter (fun t => t.length < s.length)).flatMap
      (runStar runR fuel)

/-- Executable matcher: all suffixes left over after `r` consumes a leading
part of `s`.  Fuel only bounds the number of `star` repetitions; since each
counted repetition consumes at least one character, `s.length` repetitions
are always enough. -/
def Regex.run (fuel : Nat) : Regex → List Char → List (List Char)
  | .eps, s => [s]
  | .char c, s =>
    match s with
    | [] => []
    | b :: s1 => if b = c then [s1] else []
  | .wild, s =>
    match s with
    | [] => []
    | _ :: s1 => [s1]
  | .seq a b, s => (Regex.run fuel a s).flatMap (Regex.run fuel b)
  | .alt a b, s => Regex.run fuel a s ++ Regex.run fuel b s
  | .star r, s => runStar (Regex.run fuel r) fuel s
  | .eos, s => if s.isEmpty then [s] else []

/-- Python `re.match(pattern, path)` as a boolean: does the pattern match at
the beginning of the path (not necessarily the whole path)? -/
def reMatch (p : Regex) (s : String) : Bool :=
  !(Regex.run (s.data.length + 1) p s.data).isEmpty

/-- The pattern loops of `TemplateHandler.copy` (lines 236-240 and 249-253):
scan the pattern list in order, stopping at the first `re.match` hit. -/
def matchAny : List Regex → String → Bool
  | [], _ => false
  | p :: ps, s => if reMatch p s then true else matchAny ps s

/-- Sequential composition of a whole list of regexes. -/
def rseq (l : List Regex) : Regex := l.foldr .seq .eps

/-- The regex matching exactly the literal string `s`. -/
def rlit (s : String) : Regex := rseq (s.data.map .char)

/-- The compiled form of a default exclude pattern
`'^(.*)\.EXT$'`: the leading `^` is a no-op under `re.match`, `(.*)` is a
captured run of arbitrary characters, `\.` is a literal dot, and `$` requires
the end of the subject. -/
def extRegex (ext : String) : Regex := rseq [.star .wild, rlit ext, .eos]

/-! ## The template handler -/

/-- The handler's `Meta` options after `__init__` replaced `None` by `[]`:
the configured default `exclude` and `ignore` pattern lists. -/
structure TMeta where
  exclude : List Regex
  ignore : List Regex
deriving DecidableEq, Repr

/-- The default `TemplateHandler.Meta.exclude` pattern list (lines 112-126),
pattern by pattern.  In `'^(.*)\.tar.gz$'` the second dot is unescaped in the
source and is therefore a wildcard. -/
def defaultExcludePatterns : List Regex :=
  [ extRegex ".png", extRegex ".jpg", extRegex ".jpeg", extRegex ".gif",
    extRegex ".exe", extRegex ".bin", extRegex ".zip", extRegex ".tar",
    rseq [.star .wild, rlit ".tar", .wild, rlit "gz", .eos],
    extRegex ".tgz", extRegex ".gz", extRegex ".pyo", extRegex ".pyc" ]

/-- `TemplateHandler` meta-data with its defaults: the exclude list above,
and an empty ignore list. -/
def defaultMeta : TMeta := ⟨defaultExcludePatterns, []⟩

/-- The typed failures of `TemplateHandler.copy`: the two `assert` statements
at line 184 (source path missing) and lines 232-233 (destination file already
present without `force`). -/
inductive CopyError where
  | sourceNotFound (src : String)
  | destinationExists (path : String)
deriving DecidableEq, Repr

/-- The state threaded through a `copy` run: the filesystem, plus the list of
strings passed to `self.render` so far (an instrumentation of the injected
render function, recording each call in order). -/
structure CopySt where
  fs : FS
  rlog : List String
deriving DecidableEq, Repr

/-- Line 226: the absolute source path of a walked file,
`_file = fs.abspath(os.path.join(cur_dir, _file))`. -/
def srcPathOf (curDir f : String) : String :=
  fs_abspath (osJoin curDir f)

/-- Lines 225-227: the absolute destination path of a walked file, through
`new_file = re.sub(src, '', self.render(_file, data))` and
`_file_dest = fs.abspath(os.path.join(cur_dir_dest, new_file))`. -/
def destPathOf (render : String → String) (src curDirDest f : String) : String :=
  fs_abspath (osJoin curDirDest (reSubLit src "" (render f)))

/-- The body of the file loop of `TemplateHandler.copy` (lines 223-268) for a
single file name `f` of the directory `curDir`: render the file name, compute
the absolute source and destination paths, enforce the overwrite policy, then
skip (ignored), copy verbatim (excluded) or render and write the content. -/
def processFile (meta : TMeta) (render : String → String) (src : String)
    (force : Bool) (excl ign : List Regex) (curDir curDirDest : String)
    (st : CopySt) (f : String) : Except CopyError CopySt :=
  let st1 : CopySt := ⟨st.fs, st.rlog ++ [f]⟩
  let file := srcPathOf curDir f
  let fileDest := destPathOf render src curDirDest f
  if force = false ∧ osExists st1.fs fileDest = true then
    .error (.destinationExists fileDest)
  else if matchAny (meta.ignore ++ ign) file then
    .ok st1
  else if matchAny (meta.exclude ++ excl) file then
    .ok ⟨writeFile st1.fs fileDest ((lookupFile st1.fs file).getD ""), st1.rlog⟩
  else
    let content := (lookupFile st1.fs (osJoin curDir file)).getD ""
    .ok ⟨writeFile st1.fs fileDest (render content), st1.rlog ++ [content]⟩

/-- Lines 203-208: the destination subdirectory stub of a walked directory,
`re.sub(src, '', self.render(cur_dir, data)).lstrip('/').lstrip('\\')`. -/
def renderDirStub (render : String → String) (src d : String) : String :=
  pyLstrip '\\' (pyLstrip '/' (reSubLit src "" (render d)))

/-- The body of the subdirectory loop of `TemplateHandler.copy`
(lines 211-221) for a single subdirectory name `sd`: render the name and
create the corresponding destination directory when it is missing. -/
def processSubDir (render : String → String) (src curDirDest : String)
    (st : CopySt) (sd : String) : CopySt :=
  let newSub := reSubLit src "" (render sd)
  let st1 : CopySt := ⟨st.fs, st.rlog ++ [sd]⟩
  let sdDest := osJoin curDirDest newSub
  if osExists st1.fs sdDest then st1 else ⟨makedirsAll st1.fs sdDest, st1.rlog⟩

/-- One iteration of the `os.walk` loop of `TemplateHandler.copy`
(lines 192-268): skip `'.'`, map the walked directory into the destination
tree (the source base directory maps to `dest` itself), create the rendered
subdirectories, then process each file. -/
def processEntry (meta : TMeta) (render : String → String) (src dest : String)
    (force : Bool) (excl ign : List Regex)
    (st : CopySt) (entry : String × List String × List String) :
    Except CopyError CopySt :=
  match entry with
  | (curDir, subDirs, files) =>
    if curDir = "." then .ok st
    else
      let p : String × CopySt :=
        if curDir = src then (dest, st)
        else (osJoin dest (renderDirStub render src curDir),
              ⟨st.fs, st.rlog ++ [curDir]⟩)
      let st2 := subDirs.foldl (processSubDir render src p.1) p.2
      files.foldlM (processFile meta render src force excl ign curDir p.1) st2

/-- `TemplateHandler.copy` (lines 153-270): normalize both endpoints, require
the source to exist, create the destination when absent, then walk the source
tree.  A successful run returns the final filesystem and the render log
(Python returns `True`). -/
def copy (meta : TMeta) (render : String → String) (fs : FS)
    (src0 dest0 : String) (force : Bool) (excl ign : List Regex) :
    Except CopyError CopySt :=
  let dest := fs_abspath dest0
  let src := fs_abspath src0
  if osExists fs src = false then .error (.sourceNotFound src)
  else
    let fs1 := if osExists fs dest then fs else makedirsAll fs dest
    (osWalk fs1 src).foldlM (processEntry meta render src dest force excl ign)
      ⟨fs1, []⟩

/-! ## The template loader -/

/-- The application configuration `load` consults: `App.Meta.template_dirs`
and `App.Meta.template_module`, together with the state of the module-resource
source: whether the module is already imported (`sys.modules`), whether a
fresh import would succeed, and the resources `pkgutil.get_data` can serve. -/
structure AppCfg where
  template_dirs : List String
  template_module : String
  moduleInSysModules : Bool
  moduleImportOk : Bool
  moduleResources : List (String × String)
deriving DecidableEq, Repr

/-- The failures of `TemplateHandler.load`: the `FrameworkError` for an empty
or `None` path (lines 341-343), the `FrameworkError` for an unresolvable path
(lines 356-358), and the uncaught error from `open` at line 281 when a
directory sits where a template file is expected. -/
inductive LoadError where
  | invalidPath (path : String)
  | templateNotFound (path : String)
  | isADirectory (path : String)
deriving DecidableEq, Repr

/-- Lines 274-277: the candidate full path of a template under one configured
directory, `fs.abspath(os.path.join(template_dir.rstrip('/'),
template_path.lstrip('/')))`. -/
def candidate (d tp : String) : String :=
  fs_abspath (osJoin (pyRstrip '/' d) (pyLstrip '/' tp))

/-- `TemplateHandler._load_template_from_file` (lines 272-290): try each
configured directory in order; the first candidate that exists is read and
returned, and a candidate that exists as a directory makes `open` fail. -/
def loadFromFileAux (fs : FS) (tp : String) :
    List String → Except LoadError (Option (String × String))
  | [] => .ok none
  | d :: rest =>
    match lookupFile fs (candidate d tp) with
    | some c => .ok (some (c, candidate d tp))
    | none =>
      if isDir fs (candidate d tp) then .error (.isADirectory (candidate d tp))
      else loadFromFileAux fs tp rest

/-- `TemplateHandler._load_template_from_module` (lines 292-319): resolve the
dotted resource name, import the template module unless it is already loaded
(an import failure is swallowed and reported as not found), then fetch the
named resource (a missing resource is likewise reported as not found). -/
def loadFromModule (cfg : AppCfg) (tp : String) : Option (String × String) :=
  let tp1 := pyLstrip '/' tp
  let fullModulePath := cfg.template_module ++ "." ++ reSubLit "/" "." tp1
  if cfg.moduleInSysModules || cfg.moduleImportOk then
    match cfg.moduleResources.lookup tp1 with
    | some c => some (c, fullModulePath)
    | none => none
  else none

/-- `TemplateHandler.load` (lines 321-360): reject a falsy path, try the
directory sources, fall back to the module source, and fail when neither
yields content.  The path argument is an `Option` so that `load(None)` is
representable; Python interpolates `None` into the message as `"None"`. -/
def load (cfg : AppCfg) (fs : FS) (template_path : Option String) :
    Except LoadError (String × String × String) :=
  match template_path with
  | none => .error (.invalidPath "None")
  | some tp =>
    if tp = "" then .error (.invalidPath tp)
    else
      match loadFromFileAux fs tp cfg.template_dirs with
      | .error e => .error e
      | .ok (some (c, p)) => .ok (c, "directory", p)
      | .ok none =>
        match loadFromModule cfg tp with
        | some (c, p) => .ok (c, "module", p)
        | none => .error (.templateNotFound tp)

/-! ## Correctness of the executable matcher -/

/-- A match only ever consumes a leading part: the remainder is a suffix. -/
theorem rmatch_suffix {r : Regex} {s t : List Char} (h : RMatch r s t) :
    t <:+ s := by
  induction h with
  | eps => exact List.suffix_refl _
  | char => exact List.suffix_cons _ _
  | wild => exact List.suffix_cons _ _
  | seq h1 h2 ih1 ih2 => exact ih2.trans ih1
  | altL h ih => exact ih
  | altR h ih => exact ih
  | starNil => exact List.suffix_refl _
  | starCons h1 h2 ih1 ih2 => exact ih2.trans ih1
  | eos => exact List.suffix_refl _

/-- Normalization of a `star` derivation: either it consumes nothing, or its
first repetition can be chosen to consume at least one character. -/
theorem rmatch_star_progress_aux {e : Regex} {s u : List Char}
    (h : RMatch e s u) :
    ∀ r : Regex, e = .star r →
      u = s ∨ ∃ t, RMatch r s t ∧ t.length < s.length ∧ RMatch (.star r) t u := by
  induction h with
  | eps => exact fun r he => Regex.noConfusion he
  | char => exact fun r he => Regex.noConfusion he
  | wild => exact fun r he => Regex.noConfusion he
  | seq h1 h2 ih1 ih2 => exact fun r he => Regex.noConfusion he
  | altL h ih => exact fun r he => Regex.noConfusion he
  | altR h ih => exact fun r he => Regex.noConfusion he
  | starNil => exact fun r _ => Or.inl rfl
  | eos => exact fun r he => Regex.noConfusion he
  | starCons h1 h2 ih1 ih2 =>
    intro r he
    injection he with hr
    subst hr
    rename_i s0 t0 u0
    rcases Nat.lt_or_ge t0.length s0.length with hlt | hge
    · exact Or.inr ⟨t0, h1, hlt, h2⟩
    · have hsuf := rmatch_suffix h1
      have ht0 : t0 = s0 := hsuf.eq_of_length (Nat.le_antisymm hsuf.length_le hge)
      subst ht0
      rcases ih2 _ rfl with h | ⟨t, ha, hb, hc⟩
      · exact Or.inl h
      · exact Or.inr ⟨t, ha, hb, hc⟩

/-- `rmatch_star_progress_aux` with the star on the nose. -/
theorem rmatch_star_progress {r : Regex} {s u : List Char}
    (h : RMatch (.star r) s u) :
    u = s ∨ ∃ t, RMatch r s t ∧ t.length < s.length ∧ RMatch (.star r) t u :=
  rmatch_star_progress_aux h r rfl

/-- Whatever `runStar` produces is a genuine iterated match. -/
theorem runStar_sound {r : Regex} (runR : List Char → List (List Char))
    (hR : ∀ s t, t ∈ runR s → RMatch r s t) :
    ∀ (k : Nat) (s t : List Char), t ∈ runStar runR k s →
      RMatch (.star r) s t := by
  intro k
  induction k with
  | zero =>
    intro s t ht
    simp only [runStar, List.mem_singleton] at ht
    subst ht
    exact RMatch.starNil
  | succ n ih =>
    intro s t ht
    simp only [runStar, List.mem_cons, List.mem_flatMap, List.mem_filter] at ht
    rcases ht with rfl | ⟨u, ⟨hu, _⟩, htu⟩
    · exact RMatch.starNil
    · exact RMatch.starCons (hR s u hu) (ih u t htu)

/-- Soundness: every remainder the executable matcher returns is justified by
a derivation of `RMatch`. -/
theorem run_sound (fuel : Nat) (r : Regex) :
    ∀ s t : List Char, t ∈ Regex.run fuel r s → RMatch r s t := by
  induction r with
  | eps =>
    intro s t ht
    simp only [Regex.run, List.mem_singleton] at ht
    subst ht
    exact RMatch.eps
  | char c =>
    intro s t ht
    match s with
    | [] => simp [Regex.run] at ht
    | b :: s1 =>
      simp only [Regex.run] at ht
      split at ht
      · rename_i hb
        simp only [List.mem_singleton] at ht
        subst ht; subst hb
        exact RMatch.char
      · simp at ht
  | wild =>
    intro s t ht
    match s with
    | [] => simp [Regex.run] at ht
    | b :: s1 =>
      simp only [Regex.run, List.mem_singleton] at ht
      subst ht
      exact RMatch.wild
  | seq a b iha ihb =>
    intro s t ht
    simp only [Regex.run, List.mem_flatMap] at ht
    rcases ht with ⟨u, hu, htu⟩
    exact RMatch.seq (iha s u hu) (ihb u t htu)
  | alt a b iha ihb =>
    intro s t ht
    simp only [Regex.run, List.mem_append] at ht
    rcases ht with h | h
    · exact RMatch.altL (iha s t h)
    · exact RMatch.altR (ihb s t h)
  | star r ihr =>
    intro s t ht
    exact runStar_sound (Regex.run fuel r) (ihr) fuel s t ht
  | eos =>
    intro s t ht
    match s with
    | [] =>
      simp only [Regex.run, List.isEmpty_nil, if_true, List.mem_singleton] at ht
      subst ht
      exact RMatch.eos
    | b :: s1 => simp [Regex.run] at ht

/-- Completeness of the star iteration, given completeness of the inner
matcher up to the same length bound. -/
theorem runStar_complete {r : Regex} (runR : List Char → List (List Char))
    (bound : Nat)
    (hR : ∀ s t, RMatch r s t → s.length < bound → t ∈ runR s) :
    ∀ (k : Nat) (s t : List Char), RMatch (.star r) s t → s.length < k →
      s.length < bound → t ∈ runStar runR k s := by
  intro k
  induction k with
  | zero => intro s t _ hk _; omega
  | succ n ih =>
    intro s t hm hk hb
    rcases rmatch_star_progress hm with rfl | ⟨u, h1, hlen, h2⟩
    · simp [runStar]
    · have hu : u ∈ runR s := hR s u h1 hb
      have ht : t ∈ runStar runR n u := ih u t h2 (by omega) (by omega)
      simp only [runStar, List.mem_cons, List.mem_flatMap, List.mem_filter]
      exact Or.inr ⟨u, ⟨hu, by simpa using hlen⟩, ht⟩

/-- Completeness: the executable matcher finds every remainder a derivation
of `RMatch` justifies, provided the fuel exceeds the subject's length. -/
theorem run_complete (r : Regex) :
    ∀ (fuel : Nat) (s t : List Char), RMatch r s t → s.length < fuel →
      t ∈ Regex.run fuel r s := by
  induction r with
  | eps =>
    intro fuel s t h _
    cases h
    simp [Regex.run]
  | char c =>
    intro fuel s t h _
    cases h
    simp [Regex.run]
  | wild =>
    intro fuel s t h _
    cases h
    simp [Regex.run]
  | seq a b iha ihb =>
    intro fuel s t h hf
    cases h with
    | seq h1 h2 =>
      have hu := iha fuel s _ h1 hf
      have hlen := (rmatch_suffix h1).length_le
      have ht := ihb fuel _ t h2 (by omega)
      simp only [Regex.run, List.mem_flatMap]
      exact ⟨_, hu, ht⟩
  | alt a b iha ihb =>
    intro fuel s t h hf
    simp only [Regex.run, List.mem_append]
    cases h with
    | altL h1 => exact Or.inl (iha fuel s t h1 hf)
    | altR h1 => exact Or.inr (ihb fuel s t h1 hf)
  | star r ihr =>
    intro fuel s t h hf
    exact runStar_complete (Regex.run fuel r) fuel
      (fun s1 t1 hm hlt => ihr fuel s1 t1 hm hlt) fuel s t h hf hf
  | eos =>
    intro fuel s t h _
    cases h
    simp [Regex.run]

/-- `re.match` semantics: the boolean matcher accepts exactly when the
pattern matches at the beginning of the path, leaving an arbitrary (possibly
non-empty) remainder. -/
theorem reMatch_iff {p : Regex} {s : String} :
    reMatch p s = true ↔ ∃ t, RMatch p s.data t := by
  simp only [reMatch, Bool.not_eq_true', List.isEmpty_eq_false, ne_eq]
  constructor
  · intro h
    rcases List.exists_mem_of_ne_nil _ h with ⟨t, ht⟩
    exact ⟨t, run_sound _ p s.data t ht⟩
  · rintro ⟨t, ht⟩
    intro hnil
    have := run_complete p (s.data.length + 1) s.data t ht (by omega)
    rw [hnil] at this
    simp at this


/-- The sequential pattern loop is a boolean "some pattern matches". -/
theorem matchAny_iff {ps : List Regex} {s : String} :
    matchAny ps s = true ↔ ∃ p ∈ ps, reMatch p s = true := by
  induction ps with
  | nil => simp [matchAny]
  | cons p ps ih =>
    by_cases h : reMatch p s = true
    · simp [matchAny, h]
    · simp only [Bool.not_eq_true] at h
      simp [matchAny, h, ih]

/-! ## Facts about the loader -/

/-- A path that `os.path.exists` rejects is not a file. -/
theorem osExists_false_lookup {fs : FS} {p : String}
    (h : osExists fs p = false) : lookupFile fs p = none := by
  simp only [osExists, Bool.or_eq_false_iff] at h
  cases hl : lookupFile fs p with
  | none => rfl
  | some c => rw [hl] at h; simp at h

/-- A path that `os.path.exists` rejects is not a directory either. -/
theorem osExists_false_isDir {fs : FS} {p : String}
    (h : osExists fs p = false) : isDir fs p = false := by
  simp only [osExists, Bool.or_eq_false_iff] at h
  exact h.2

/-- When every configured directory misses, `_load_template_from_file`
returns its "not found" value. -/
theorem loadFromFileAux_none {fs : FS} {tp : String} :
    ∀ dirs : List String,
      (∀ d ∈ dirs, osExists fs (candidate d tp) = false) →
      loadFromFileAux fs tp dirs = .ok none := by
  intro dirs
  induction dirs with
  | nil => intro _; rfl
  | cons d rest ih =>
    intro h
    have hd := h d (by simp)
    simp only [loadFromFileAux, osExists_false_lookup hd,
      osExists_false_isDir hd, if_false, Bool.false_eq_true]
    exact ih fun d1 hd1 => h d1 (by simp [hd1])

/-- `_load_template_from_file` returns the file found under the first
configured directory whose candidate path exists. -/
theorem loadFromFileAux_first_hit {fs : FS} {tp c : String} :
    ∀ (pre : List String) (d : String) (post : List String),
      (∀ d1 ∈ pre, osExists fs (candidate d1 tp) = false) →
      lookupFile fs (candidate d tp) = some c →
      loadFromFileAux fs tp (pre ++ d :: post) =
        .ok (some (c, candidate d tp)) := by
  intro pre
  induction pre with
  | nil =>
    intro d post _ hc
    simp [loadFromFileAux, hc]
  | cons p pre ih =>
    intro d post h hc
    have hp := h p (by simp)
    simp only [List.cons_append, loadFromFileAux, osExists_false_lookup hp,
      osExists_false_isDir hp, if_false, Bool.false_eq_true]
    exact ih d post (fun d1 hd1 => h d1 (by simp [hd1])) hc

/-! ## The claims about the loader -/

/-- C1: for every non-empty template path that exists (as a file) under at
least one configured directory source, `load` returns the content of the file
found in the first such directory — directories tried in their declared
order, stopping at the first hit — together with template type `"directory"`
and the full physical path of that file. -/
theorem spec_c1 (cfg : AppCfg) (fs : FS) (tp c d : String)
    (pre post : List String)
    (hne : tp ≠ "")
    (hdirs : cfg.template_dirs = pre ++ d :: post)
    (hmiss : ∀ d1 ∈ pre, osExists fs (candidate d1 tp) = false)
    (hhit : lookupFile fs (candidate d tp) = some c) :
    load cfg fs (some tp) = .ok (c, "directory", candidate d tp) := by
  simp only [load, if_neg hne, hdirs,
    loadFromFileAux_first_hit pre d post hmiss hhit]

/-- Witness for C1 at a concrete input: two configured directories, the
template absent under the first and present under the second. -/
theorem spec_c1_w :
    load ⟨["/t1", "/t2"], "tmpl", false, false, []⟩
        ⟨[("/t2/x.txt", "hello")], []⟩ (some "x.txt") =
      .ok ("hello", "directory", "/t2/x.txt") :=
  spec_c1 ⟨["/t1", "/t2"], "tmpl", false, false, []⟩
    ⟨[("/t2/x.txt", "hello")], []⟩ "x.txt" "hello" "/t2" ["/t1"] []
    (by decide) rfl (by decide) (by decide)

/-- C2: for every path absent from every configured directory source but
present in the module-resource namespace, `load` returns that resource's
content with template type `"module"`; and when the module namespace cannot
be imported, the failure is swallowed and `load` reports "not found" instead
of raising the import failure. -/
theorem spec_c2 (cfg : AppCfg) (fs : FS) (tp c : String)
    (hne : tp ≠ "")
    (hmiss : ∀ d ∈ cfg.template_dirs, osExists fs (candidate d tp) = false) :
    ((cfg.moduleInSysModules || cfg.moduleImportOk) = true →
      cfg.moduleResources.lookup (pyLstrip '/' tp) = some c →
      load cfg fs (some tp) =
        .ok (c, "module",
          cfg.template_module ++ "." ++ reSubLit "/" "." (pyLstrip '/' tp))) ∧
    (cfg.moduleInSysModules = false → cfg.moduleImportOk = false →
      load cfg fs (some tp) = .error (.templateNotFound tp)) := by
  have hfile := loadFromFileAux_none cfg.template_dirs hmiss
  constructor
  · intro himp hres
    simp only [load, if_neg hne, hfile]
    simp [loadFromModule, himp, hres]
  · intro h1 h2
    simp only [load, if_neg hne, hfile]
    simp [loadFromModule, h1, h2]

/-- Witness for C2 at a concrete input: one directory source that misses,
an importable module holding the resource. -/
theorem spec_c2_w :
    load ⟨["/t1"], "tmpl", false, true, [("y.txt", "MOD")]⟩ ⟨[], []⟩
        (some "y.txt") =
      .ok ("MOD", "module", "tmpl.y.txt") :=
  (spec_c2 ⟨["/t1"], "tmpl", false, true, [("y.txt", "MOD")]⟩ ⟨[], []⟩
      "y.txt" "MOD" (by decide) (by decide)).1 (by decide) (by decide)

/-- C3: a non-empty path that yields content from neither a configured
directory source nor the module-resource source makes `load` fail with
`TemplateNotFoundError` naming the logical path. -/
theorem spec_c3 (cfg : AppCfg) (fs : FS) (tp : String)
    (hne : tp ≠ "")
    (hmiss : ∀ d ∈ cfg.template_dirs, osExists fs (candidate d tp) = false)
    (hmod : cfg.moduleResources.lookup (pyLstrip '/' tp) = none ∨
      (cfg.moduleInSysModules = false ∧ cfg.moduleImportOk = false)) :
    load cfg fs (some tp) = .error (.templateNotFound tp) := by
  have hfile := loadFromFileAux_none cfg.template_dirs hmiss
  simp only [load, if_neg hne, hfile]
  rcases hmod with h | ⟨h1, h2⟩
  · cases himp : (cfg.moduleInSysModules || cfg.moduleImportOk) <;>
      simp [loadFromModule, himp, h]
  · simp [loadFromModule, h1, h2]

/-- Witness for C3 at a concrete input: one directory source that misses and
an importable module that lacks the resource. -/
theorem spec_c3_w :
    load ⟨["/t1"], "tmpl", false, true, []⟩ ⟨[], []⟩ (some "zzz") =
      .error (.templateNotFound "zzz") :=
  spec_c3 ⟨["/t1"], "tmpl", false, true, []⟩ ⟨[], []⟩ "zzz"
    (by decide) (by decide) (Or.inl (by decide))

/-- C4: calling `load` with `None` or with the empty string fails with
`InvalidPathError`, whatever the configured sources and the filesystem hold —
so before any source is consulted. -/
theorem spec_c4 (cfg : AppCfg) (fs : FS) :
    load cfg fs none = .error (.invalidPath "None") ∧
    load cfg fs (some "") = .error (.invalidPath "") :=
  ⟨rfl, rfl⟩

/-! ## Facts about the copier -/

/-- Processing one file never touches the set of directories. -/
theorem processFile_ok_dirs {meta : TMeta} {render : String → String}
    {src : String} {force : Bool} {excl ign : List Regex}
    {curDir curDirDest : String} {st st1 : CopySt} {f : String}
    (h : processFile meta render src force excl ign curDir curDirDest st f =
      .ok st1) :
    st1.fs.dirs = st.fs.dirs := by
  simp only [processFile] at h
  split at h
  · simp at h
  · split at h
    · cases h; rfl
    · split at h
      · cases h; rfl
      · cases h; rfl

/-- Creating a destination subdirectory only ever adds directories. -/
theorem processSubDir_dirs_mono {render : String → String}
    {src curDirDest : String} {st : CopySt} {sd : String} {q : String}
    (hq : q ∈ st.fs.dirs) :
    q ∈ (processSubDir render src curDirDest st sd).fs.dirs := by
  simp only [processSubDir]
  split
  · exact hq
  · simp only [makedirsAll, List.mem_append]
    exact Or.inl hq

/-- The subdirectory loop only ever adds directories. -/
theorem foldl_subDirs_dirs_mono {render : String → String}
    {src curDirDest : String} :
    ∀ (sds : List String) (st : CopySt) (q : String), q ∈ st.fs.dirs →
      q ∈ ((sds.foldl (processSubDir render src curDirDest) st).fs.dirs) := by
  intro sds
  induction sds with
  | nil => intro st q hq; exact hq
  | cons sd sds ih =>
    intro st q hq
    exact ih _ q (processSubDir_dirs_mono hq)

/-- The file loop never touches the set of directories. -/
theorem foldlM_files_dirs {meta : TMeta} {render : String → String}
    {src : String} {force : Bool} {excl ign : List Regex}
    {curDir curDirDest : String} :
    ∀ (files : List String) (st st1 : CopySt),
      files.foldlM
          (processFile meta render src force excl ign curDir curDirDest) st =
        .ok st1 →
      st1.fs.dirs = st.fs.dirs := by
  intro files
  induction files with
  | nil =>
    intro st st1 h
    simp only [List.foldlM_nil] at h
    cases h
    rfl
  | cons f fl ih =>
    intro st st1 h
    rw [List.foldlM_cons] at h
    cases hf : processFile meta render src force excl ign curDir curDirDest st f with
    | error e => rw [hf] at h; simp [Bind.bind, Except.bind] at h
    | ok st2 =>
      rw [hf] at h
      simp only [Bind.bind, Except.bind] at h
      exact (ih st2 st1 h).trans (processFile_ok_dirs hf)

/-- One walk iteration only ever adds directories. -/
theorem processEntry_dirs_mono {meta : TMeta} {render : String → String}
    {src dest : String} {force : Bool} {excl ign : List Regex}
    {st st1 : CopySt} {entry : String × List String × List String}
    (h : processEntry meta render src dest force excl ign st entry = .ok st1) :
    ∀ q ∈ st.fs.dirs, q ∈ st1.fs.dirs := by
  intro q hq
  obtain ⟨curDir, subDirs, files⟩ := entry
  simp only [processEntry] at h
  split at h
  · cases h; exact hq
  · rw [foldlM_files_dirs files _ st1 h]
    split
    · exact foldl_subDirs_dirs_mono subDirs _ q hq
    · exact foldl_subDirs_dirs_mono subDirs _ q hq

/-- The whole walk loop only ever adds directories. -/
theorem foldlM_entries_dirs_mono {meta : TMeta} {render : String → String}
    {src dest : String} {force : Bool} {excl ign : List Regex} :
    ∀ (entries : List (String × List String × List String)) (st st1 : CopySt),
      entries.foldlM (processEntry meta render src dest force excl ign) st =
        .ok st1 →
      ∀ q ∈ st.fs.dirs, q ∈ st1.fs.dirs := by
  intro entries
  induction entries with
  | nil =>
    intro st st1 h
    simp only [List.foldlM_nil] at h
    cases h
    exact fun q hq => hq
  | cons e es ih =>
    intro st st1 h
    rw [List.foldlM_cons] at h
    cases he : processEntry meta render src dest force excl ign st e with
    | error e1 => rw [he] at h; simp [Bind.bind, Except.bind] at h
    | ok st2 =>
      rw [he] at h
      simp only [Bind.bind, Except.bind] at h
      exact fun q hq => ih st2 st1 h q (processEntry_dirs_mono he q hq)

/-- `os.makedirs` leaves every ancestor of its argument in place. -/
theorem pathAncestors_makedirs {fs : FS} {p : String} :
    ∀ q ∈ pathAncestors p, q ∈ (makedirsAll fs p).dirs := by
  intro q hq
  simp only [makedirsAll, List.mem_append, List.mem_filter]
  by_cases h : fs.dirs.contains q
  · exact Or.inl (List.elem_iff.mp h)
  · exact Or.inr ⟨hq, by simpa using h⟩

/-! ## The claims about the copier -/

/-- C8: the pattern check `copy` performs accepts a path exactly when some
pattern of the consulted list matches the path under prefix-anchored partial
match semantics — there is a derivation consuming a leading part of the path
and leaving an arbitrary remainder — and the consulted list is the plain
concatenation of the configured default patterns with the per-call patterns,
both preserved. -/
theorem spec_c8 (dflt perCall : List Regex) (path : String) :
    matchAny (dflt ++ perCall) path = true ↔
      ∃ p, (p ∈ dflt ∨ p ∈ perCall) ∧ ∃ rest, RMatch p path.data rest := by
  rw [matchAny_iff]
  constructor
  · rintro ⟨p, hp, hm⟩
    rcases reMatch_iff.mp hm with ⟨rest, hrest⟩
    exact ⟨p, List.mem_append.mp hp, rest, hrest⟩
  · rintro ⟨p, hp, rest, hrest⟩
    exact ⟨p, List.mem_append.mpr hp, reMatch_iff.mpr ⟨rest, hrest⟩⟩

/-- C5, as amended: `copy` requires only that `src` exists — it fails with
`SourceNotFoundError` when `src` is absent, while a `src` that exists but is
not a directory passes the check and yields an empty traversal, so `copy`
succeeds having only created `dest`; when `src` is valid and `dest` absent,
`dest` is created, intermediate directories included, before the traversal
begins (every ancestor of `dest` is a directory of any successful result). -/
theorem spec_c5 (meta : TMeta) (render : String → String) (fs : FS)
    (src dest : String) (force : Bool) (excl ign : List Regex) :
    (osExists fs (fs_abspath src) = false →
      copy meta render fs src dest force excl ign =
        .error (.sourceNotFound (fs_abspath src))) ∧
    (osExists fs (fs_abspath src) = true →
      isDir (if osExists fs (fs_abspath dest) then fs
             else makedirsAll fs (fs_abspath dest)) (fs_abspath src) = false →
      copy meta render fs src dest force excl ign =
        .ok ⟨if osExists fs (fs_abspath dest) then fs
             else makedirsAll fs (fs_abspath dest), []⟩) ∧
    (∀ res, copy meta render fs src dest force excl ign = .ok res →
      osExists fs (fs_abspath dest) = false →
      ∀ q ∈ pathAncestors (fs_abspath dest), q ∈ res.fs.dirs) := by
  refine ⟨fun h => ?_, fun h1 h2 => ?_, fun res hcopy hdest q hq => ?_⟩
  · simp [copy, h]
  · have h2m : fs_abspath src ∉
        (if osExists fs (fs_abspath dest) then fs
         else makedirsAll fs (fs_abspath dest)).dirs := by
      simp only [isDir] at h2
      simpa using h2
    have hwalk :
        osWalk (if osExists fs (fs_abspath dest) then fs
                else makedirsAll fs (fs_abspath dest)) (fs_abspath src) = [] := by
      simp [osWalk, walkAux, h2m]
    simp only [copy, h1, Bool.true_eq_false, if_false, hwalk, List.foldlM_nil]
    rfl
  · simp only [copy, hdest, Bool.false_eq_true, if_false] at hcopy
    split at hcopy
    · simp at hcopy
    · exact foldlM_entries_dirs_mono _ _ _ hcopy q (pathAncestors_makedirs q hq)

/-- Counterexample to C5 as stated: `/sf` exists but is a regular file, not a
directory, yet `copy` does not fail with `SourceNotFoundError` — it creates
`/dd` and returns successfully. -/
theorem spec_c5_cex :
    copy defaultMeta (fun s => s) ⟨[("/sf", "DATA")], []⟩ "/sf" "/dd"
        false [] [] =
      .ok ⟨⟨[("/sf", "DATA")], ["/dd"]⟩, []⟩ ∧
    copy defaultMeta (fun s => s) ⟨[("/sf", "DATA")], []⟩ "/sf" "/dd"
        false [] [] ≠
      .error (.sourceNotFound "/sf") := by
  have hA : copy defaultMeta (fun s => s) ⟨[("/sf", "DATA")], []⟩ "/sf" "/dd"
      false [] [] = .ok ⟨⟨[("/sf", "DATA")], ["/dd"]⟩, []⟩ := rfl
  exact ⟨hA, fun h => Except.noConfusion (hA.symm.trans h)⟩

/-- Witness for C5 at concrete inputs: an absent source fails with
`SourceNotFoundError`, and a file source succeeds after creating `dest`. -/
theorem spec_c5_w :
    copy defaultMeta (fun s => s) ⟨[], []⟩ "/nope" "/dd" false [] [] =
      .error (.sourceNotFound "/nope") ∧
    copy defaultMeta (fun s => s) ⟨[("/sf", "DATA")], ["/other"]⟩ "/sf" "/dd"
        false [] [] =
      .ok ⟨⟨[("/sf", "DATA")], ["/other", "/dd"]⟩, []⟩ :=
  ⟨(spec_c5 defaultMeta (fun s => s) ⟨[], []⟩ "/nope" "/dd" false [] []).1
      (by decide),
   (spec_c5 defaultMeta (fun s => s) ⟨[("/sf", "DATA")], ["/other"]⟩ "/sf"
      "/dd" false [] []).2.1 (by decide) (by decide)⟩

/-- C6, as amended: for a file entry whose destination path already exists,
`copy` fails with `DestinationExistsError` naming that path when the
overwrite flag is false; when the flag is true it proceeds and replaces the
existing file's content — with the source bytes for an excluded file, with
the rendered content otherwise — unless the file's source path matches an
ignore pattern, in which case the file is skipped and the existing
destination file is left unchanged. -/
theorem spec_c6 (meta : TMeta) (render : String → String) (src : String)
    (excl ign : List Regex) (curDir curDirDest : String) (st : CopySt)
    (f : String)
    (hex : osExists st.fs (destPathOf render src curDirDest f) = true) :
    (processFile meta render src false excl ign curDir curDirDest st f =
      .error (.destinationExists (destPathOf render src curDirDest f))) ∧
    (matchAny (meta.ignore ++ ign) (srcPathOf curDir f) = true →
      processFile meta render src true excl ign curDir curDirDest st f =
        .ok ⟨st.fs, st.rlog ++ [f]⟩) ∧
    (matchAny (meta.ignore ++ ign) (srcPathOf curDir f) = false →
      matchAny (meta.exclude ++ excl) (srcPathOf curDir f) = true →
      processFile meta render src true excl ign curDir curDirDest st f =
        .ok ⟨writeFile st.fs (destPathOf render src curDirDest f)
              ((lookupFile st.fs (srcPathOf curDir f)).getD ""),
            st.rlog ++ [f]⟩) ∧
    (matchAny (meta.ignore ++ ign) (srcPathOf curDir f) = false →
      matchAny (meta.exclude ++ excl) (srcPathOf curDir f) = false →
      processFile meta render src true excl ign curDir curDirDest st f =
        .ok ⟨writeFile st.fs (destPathOf render src curDirDest f)
              (render ((lookupFile st.fs
                  (osJoin curDir (srcPathOf curDir f))).getD "")),
            (st.rlog ++ [f]) ++
              [(lookupFile st.fs (osJoin curDir (srcPathOf curDir f))).getD ""]⟩) := by
  refine ⟨?_, fun hig => ?_, fun hig hexc => ?_, fun hig hexc => ?_⟩
  · simp [processFile, hex]
  · simp [processFile, hig]
  · simp [processFile, hig, hexc]
  · simp [processFile, hig, hexc]

/-- Counterexample to C6 as stated: overwrite is true and the destination
file `/d/a.txt` pre-exists, but the source file matches an ignore pattern, so
`copy` succeeds without replacing the destination's content — `/d/a.txt`
still holds `"OLD"`, not the source content `"NEW"`. -/
theorem spec_c6_cex :
    copy defaultMeta (fun s => s)
        ⟨[("/s/a.txt", "NEW"), ("/d/a.txt", "OLD")], ["/s", "/d"]⟩
        "/s" "/d" true [] [rlit "/s/a"] =
      .ok ⟨⟨[("/s/a.txt", "NEW"), ("/d/a.txt", "OLD")], ["/s", "/d"]⟩,
          ["a.txt"]⟩ ∧
    lookupFile ⟨[("/s/a.txt", "NEW"), ("/d/a.txt", "OLD")], ["/s", "/d"]⟩
        "/d/a.txt" = some "OLD" :=
  ⟨rfl, rfl⟩

/-- Witness for C6 at a concrete input: the pre-existing `/d/a.txt` makes the
file step fail with `DestinationExistsError` when the flag is false. -/
theorem spec_c6_w :
    processFile defaultMeta (fun s => s) "/s" false [] [] "/s" "/d"
        ⟨⟨[("/s/a.txt", "NEW"), ("/d/a.txt", "OLD")], ["/s", "/d"]⟩, []⟩
        "a.txt" =
      .error (.destinationExists "/d/a.txt") :=
  (spec_c6 defaultMeta (fun s => s) "/s" [] [] "/s" "/d"
      ⟨⟨[("/s/a.txt", "NEW"), ("/d/a.txt", "OLD")], ["/s", "/d"]⟩, []⟩
      "a.txt" (by decide)).1

/-- C7: a source file whose absolute path matches a pattern of the combined
ignore list is skipped outright — the file step leaves the filesystem
untouched, so nothing of it appears in the destination tree, and the render
function only ever saw the file name, never the content; a source file whose
path matches only a pattern of the combined exclude list is written to its
destination path with byte-identical content, again without its content being
passed to the render function.  The closing conjunct runs a whole `copy` over
a tree with one default-excluded `.png` and one per-call-ignored `.txt`: the
ignored file does not appear under `/d`, the excluded file's bytes are copied
verbatim, and the render log holds only the two file names. -/
theorem spec_c7 :
    (∀ (meta : TMeta) (render : String → String) (src : String) (force : Bool)
        (excl ign : List Regex) (curDir curDirDest : String) (st : CopySt)
        (f : String),
      ¬ (force = false ∧
          osExists st.fs (destPathOf render src curDirDest f) = true) →
      matchAny (meta.ignore ++ ign) (srcPathOf curDir f) = true →
      processFile meta render src force excl ign curDir curDirDest st f =
        .ok ⟨st.fs, st.rlog ++ [f]⟩) ∧
    (∀ (meta : TMeta) (render : String → String) (src : String) (force : Bool)
        (excl ign : List Regex) (curDir curDirDest : String) (st : CopySt)
        (f content : String),
      ¬ (force = false ∧
          osExists st.fs (destPathOf render src curDirDest f) = true) →
      matchAny (meta.ignore ++ ign) (srcPathOf curDir f) = false →
      matchAny (meta.exclude ++ excl) (srcPathOf curDir f) = true →
      lookupFile st.fs (srcPathOf curDir f) = some content →
      processFile meta render src force excl ign curDir curDirDest st f =
        .ok ⟨writeFile st.fs (destPathOf render src curDirDest f) content,
            st.rlog ++ [f]⟩) ∧
    (copy defaultMeta (fun s => reSubLit "\x7b\x7bx\x7d\x7d" "V" s)
        ⟨[("/s/p.png", "PNG\x7b\x7bx\x7d\x7d"), ("/s/t.txt", "T\x7b\x7bx\x7d\x7d")],
         ["/s", "/d"]⟩
        "/s" "/d" false [] [rlit "/s/t"] =
      .ok ⟨⟨[("/d/p.png", "PNG\x7b\x7bx\x7d\x7d"),
             ("/s/p.png", "PNG\x7b\x7bx\x7d\x7d"),
             ("/s/t.txt", "T\x7b\x7bx\x7d\x7d")], ["/s", "/d"]⟩,
          ["p.png", "t.txt"]⟩) := by
  refine ⟨fun meta render src force excl ign curDir curDirDest st f hnc hig => ?_,
    fun meta render src force excl ign curDir curDirDest st f content
      hnc hig hexc hlook => ?_, rfl⟩
  · simp only [processFile]
    rw [if_neg hnc]
    simp [hig]
  · simp only [processFile]
    rw [if_neg hnc]
    simp [hig, hexc, hlook]

/-- Witness for C7 at concrete inputs: the ignored file's step returns the
state unchanged except for the logged file name, and the excluded file's step
writes the source bytes unchanged. -/
theorem spec_c7_w :
    processFile defaultMeta (fun s => s) "/s" true [] [rlit "/s/t"] "/s" "/d"
        ⟨⟨[("/s/t.txt", "T")], ["/s", "/d"]⟩, []⟩ "t.txt" =
      .ok ⟨⟨[("/s/t.txt", "T")], ["/s", "/d"]⟩, ["t.txt"]⟩ ∧
    processFile defaultMeta (fun s => s) "/s" true [] [] "/s" "/d"
        ⟨⟨[("/s/p.png", "BYTES")], ["/s", "/d"]⟩, []⟩ "p.png" =
      .ok ⟨⟨[("/d/p.png", "BYTES"), ("/s/p.png", "BYTES")], ["/s", "/d"]⟩,
          ["p.png"]⟩ :=
  ⟨spec_c7.1 defaultMeta (fun s => s) "/s" true [] [rlit "/s/t"] "/s" "/d"
      ⟨⟨[("/s/t.txt", "T")], ["/s", "/d"]⟩, []⟩ "t.txt"
      (by decide) (by decide),
   spec_c7.2.1 defaultMeta (fun s => s) "/s" true [] [] "/s" "/d"
      ⟨⟨[("/s/p.png", "BYTES")], ["/s", "/d"]⟩, []⟩ "p.png" "BYTES"
      (by decide) (by decide) (by decide) (by decide)⟩

/-- C9: the concrete round-trip scenario — a source tree
`/src/\x7b\x7bname\x7d\x7d/readme.txt` whose file content is
`Hello \x7b\x7bname\x7d\x7d`, a render context binding `name` to `Acme`
realized as literal token substitution, and `copy` produces
`/dest/Acme/readme.txt` containing `Hello Acme`: the directory name and the
content both reflect the substituted value, and the destination tree mirrors
the source structure modulo rendered names. -/
theorem spec_c9 :
    copy defaultMeta
        (fun s => reSubLit "\x7b\x7bname\x7d\x7d" "Acme" s)
        ⟨[("/src/\x7b\x7bname\x7d\x7d/readme.txt",
           "Hello \x7b\x7bname\x7d\x7d")],
         ["/src", "/src/\x7b\x7bname\x7d\x7d"]⟩
        "/src" "/dest" false [] [] =
      .ok ⟨⟨[("/dest/Acme/readme.txt", "Hello Acme"),
             ("/src/\x7b\x7bname\x7d\x7d/readme.txt",
              "Hello \x7b\x7bname\x7d\x7d")],
            ["/src", "/src/\x7b\x7bname\x7d\x7d", "/dest", "/dest/Acme"]⟩,
          ["\x7b\x7bname\x7d\x7d", "/src/\x7b\x7bname\x7d\x7d",
           "readme.txt", "Hello \x7b\x7bname\x7d\x7d"]⟩ :=
  rfl

/-- C10: the destination-exists check precedes the ignore and exclude
checks — with the overwrite flag false, a file entry whose rendered
destination path already exists makes the file step fail with
`DestinationExistsError` even when its source path matches an ignore pattern;
and a whole `copy` over such a tree aborts with that error, although the same
tree without the pre-existing destination file succeeds with the ignored file
never written. -/
theorem spec_c10 (meta : TMeta) (render : String → String) (src : String)
    (excl ign : List Regex) (curDir curDirDest : String) (st : CopySt)
    (f : String)
    (hig : matchAny (meta.ignore ++ ign) (srcPathOf curDir f) = true)
    (hex : osExists st.fs (destPathOf render src curDirDest f) = true) :
    processFile meta render src false excl ign curDir curDirDest st f =
      .error (.destinationExists (destPathOf render src curDirDest f)) ∧
    copy defaultMeta (fun s => s)
        ⟨[("/s/a.txt", "T"), ("/d/a.txt", "OLD")], ["/s", "/d"]⟩
        "/s" "/d" false [] [rlit "/s/a"] =
      .error (.destinationExists "/d/a.txt") ∧
    copy defaultMeta (fun s => s) ⟨[("/s/a.txt", "T")], ["/s", "/d"]⟩
        "/s" "/d" false [] [rlit "/s/a"] =
      .ok ⟨⟨[("/s/a.txt", "T")], ["/s", "/d"]⟩, ["a.txt"]⟩ := by
  refine ⟨?_, rfl, rfl⟩
  simp [processFile, hex]

/-- Witness for C10 at a concrete input: the ignored file's step still fails
on the pre-existing destination path. -/
theorem spec_c10_w :
    processFile defaultMeta (fun s => s) "/s" false [] [rlit "/s/a"] "/s" "/d"
        ⟨⟨[("/s/a.txt", "T"), ("/d/a.txt", "OLD")], ["/s", "/d"]⟩, []⟩
        "a.txt" =
      .error (.destinationExists "/d/a.txt") ∧
    copy defaultMeta (fun s => s)
        ⟨[("/s/a.txt", "T"), ("/d/a.txt", "OLD")], ["/s", "/d"]⟩
        "/s" "/d" false [] [rlit "/s/a"] =
      .error (.destinationExists "/d/a.txt") ∧
    copy defaultMeta (fun s => s) ⟨[("/s/a.txt", "T")], ["/s", "/d"]⟩
        "/s" "/d" false [] [rlit "/s/a"] =
      .ok ⟨⟨[("/s/a.txt", "T")], ["/s", "/d"]⟩, ["a.txt"]⟩ :=
  spec_c10 defaultMeta (fun s => s) "/s" [] [rlit "/s/a"] "/s" "/d"
    ⟨⟨[("/s/a.txt", "T"), ("/d/a.txt", "OLD")], ["/s", "/d"]⟩, []⟩ "a.txt"
    (by decide) (by decide)

end Cement
